import Mathlib

/-!
Verification development for the simulation core of a platform-fighter game.

The Rust sources are embedded shallowly:

* machine floats (`f32`) are modelled by exact rationals `ℚ`; where the source
  compares a Euclidean length (a square root) against a bound, the embedding
  compares the squared length against the squared bound, which is equivalent
  over the reals for non-negative bounds and is noted at each use site;
* `bevy` ECS systems acting on one entity become pure functions on explicit
  state, and event streams become lists folded in the order the events are
  sent;
* enums, constants and field names keep their source names (Rust `snake_case`
  is kept; `end` is renamed `stateEnd` because `end` is a Lean keyword).
-/

namespace FighterPlatformer

/-- Two-dimensional vector over exact rationals, modelling `bevy`'s `Vec2`. -/
structure Vec2 where
  x : ℚ
  y : ℚ
deriving DecidableEq, Repr

namespace Vec2

/-- The zero vector (`Vec2::ZERO`). -/
def zero : Vec2 := ⟨0, 0⟩

instance : Add Vec2 := ⟨fun a b => ⟨a.x + b.x, a.y + b.y⟩⟩
instance : Sub Vec2 := ⟨fun a b => ⟨a.x - b.x, a.y - b.y⟩⟩
instance : Neg Vec2 := ⟨fun a => ⟨-a.x, -a.y⟩⟩
instance : SMul ℚ Vec2 := ⟨fun k v => ⟨k * v.x, k * v.y⟩⟩

/-- Dot product `Vec2::dot`. -/
def dot (a b : Vec2) : ℚ := a.x * b.x + a.y * b.y

/-- The 2D cross product `v.x * w.y - v.y * w.x` (`cross_product` in
`hitbox.rs`, `perp_dot` inside `Vec2::angle_between`). -/
def cross (v w : Vec2) : ℚ := v.x * w.y - v.y * w.x

/-- Squared Euclidean length (`Vec2::length_squared`); the source's
`Vec2::length` is its square root. -/
def lenSq (v : Vec2) : ℚ := v.x * v.x + v.y * v.y

@[simp] theorem add_def (a b : Vec2) : a + b = ⟨a.x + b.x, a.y + b.y⟩ := rfl
@[simp] theorem sub_def (a b : Vec2) : a - b = ⟨a.x - b.x, a.y - b.y⟩ := rfl
@[simp] theorem neg_def (a : Vec2) : -a = ⟨-a.x, -a.y⟩ := rfl
@[simp] theorem smul_def (k : ℚ) (v : Vec2) : k • v = ⟨k * v.x, k * v.y⟩ := rfl

theorem lenSq_nonneg (v : Vec2) : 0 ≤ v.lenSq := by
  have hx : 0 ≤ v.x * v.x := mul_self_nonneg _
  have hy : 0 ≤ v.y * v.y := mul_self_nonneg _
  simpa [lenSq] using add_nonneg hx hy

theorem lenSq_eq_zero_iff (v : Vec2) : v.lenSq = 0 ↔ v = Vec2.zero := by
  constructor
  · intro h
    have hx : 0 ≤ v.x * v.x := mul_self_nonneg _
    have hy : 0 ≤ v.y * v.y := mul_self_nonneg _
    have hsum : v.x * v.x + v.y * v.y = 0 := h
    have hx0 : v.x * v.x = 0 := le_antisymm (by linarith) hx
    have hy0 : v.y * v.y = 0 := le_antisymm (by linarith) hy
    cases v
    simp only [Vec2.mk.injEq, zero]
    exact ⟨by nlinarith, by nlinarith⟩
  · rintro rfl; simp [lenSq, zero]

theorem lenSq_sub_comm (a b : Vec2) : (a - b).lenSq = (b - a).lenSq := by
  simp [lenSq]; ring

end Vec2

/- The source frame counter type is `pub type FrameNumber = u32`; frame
arithmetic in the sources never wraps, so frames are embedded as `Nat`. -/

/-! ## `src/fighter_state.rs`: fighter states and intangibility (claim C2) -/

namespace FSt

/-- The `FighterState` enum of `fighter_state.rs` (the newest rewrite, with a
stick-direction payload on `Airdodge`). -/
inductive FighterState where
  | Idle
  | Crouch
  | EnterCrouch
  | ExitCrouch
  | Turnaround
  | RunTurnaround
  | LandCrouch
  | IdleAirborne
  | JumpSquat
  | Walk
  | Dash
  | Moonwalk
  | Run
  | RunEnd
  | Airdodge (v : Vec2)
  | Attack
deriving DecidableEq, Repr

def AIRDODGE_INITIAL_SPEED : ℚ := 10
def AIRDODGE_DURATION_FRAMES : Nat := 15
def AIRDODGE_INTANGIBLE_START : Nat := 4
def AIRDODGE_INTANGIBLE_END : Nat := 15
def TURNAROUND_DURATION_FRAMES : Nat := 8
def RUN_TURNAROUND_DURATION_FRAMES : Nat := 8
def CROUCH_TRANSITION_THRESHOLD_FRAME : Nat := 6
def DEFAULT_LAND_CROUCH_DURATION : Nat := 6
def DEFAULT_JUMP_SQUAT_DURATION : Nat := 6
def DEFAULT_DASH_DURATION : Nat := 15

/-- `FighterState::is_intangible` from `fighter_state.rs`. -/
def is_intangible (s : FighterState) (frame : Nat) : Bool :=
  match s with
  | .Airdodge _ => AIRDODGE_INTANGIBLE_START ≤ frame && frame ≤ AIRDODGE_INTANGIBLE_END
  | _ => false

/-- `FighterState::is_grounded` from `fighter_state.rs`. -/
def is_grounded (s : FighterState) : Bool :=
  match s with
  | .Idle | .LandCrouch | .JumpSquat | .Walk | .Turnaround | .RunTurnaround
  | .RunEnd | .Dash | .Run | .Moonwalk | .Crouch | .EnterCrouch | .ExitCrouch => true
  | _ => false

end FSt

/-! ## `src/main.rs`: `PlayerStateMachine` and its frame counter (claim C1) -/

namespace Psm

/-- `Direction` from `main.rs`. -/
inductive Direction where
  | Left
  | Right
deriving DecidableEq, Repr

def Direction.flip : Direction → Direction
  | .Left => .Right
  | .Right => .Left

/-- `BasicState` from `main.rs`. -/
inductive BasicState where
  | Idle
  | Turnaround
  | RunTurnaround
  | LandCrouch
  | IdleAirborne
  | JumpSquat
  | Walk
  | Dash
  | Run
  | RunEnd
  | Airdodge
deriving DecidableEq, Repr

/-- `PlayerStateMachine` from `main.rs`. -/
structure PlayerStateMachine where
  state : BasicState
  facing : Direction
  frame_count : Nat
deriving DecidableEq, Repr

namespace PlayerStateMachine

def LANDING_LAG : Nat := 12
def IDLE_CYCLE : Nat := 240
def JUMPSQUAT : Nat := 5
def DASH_DURATION : Nat := 20
def AIRDODGE_DURATION_FRAMES : Nat := 30
def AIRDODGE_INTANGIBLE_START : Nat := 4
def AIRDODGE_INTANGIBLE_END : Nat := 20
def TURNAROUND_DURATION_FRAMES : Nat := 14
def TURNAROUND_THRESHOLD_FRAME : Nat := TURNAROUND_DURATION_FRAMES / 2
def RUN_TURNAROUND_DURATION_FRAMES : Nat := 14
-- the source derives this threshold from TURNAROUND_DURATION_FRAMES
def RUN_TURNAROUND_THRESHOLD_FRAME : Nat := TURNAROUND_DURATION_FRAMES / 2

/-- `PlayerStateMachine::is_intangible` from `main.rs`. -/
def is_intangible (psm : PlayerStateMachine) : Bool :=
  match psm.state with
  | .Airdodge =>
      AIRDODGE_INTANGIBLE_START ≤ psm.frame_count &&
      psm.frame_count ≤ AIRDODGE_INTANGIBLE_END
  | _ => false

/-- `PlayerStateMachine::set_new_state` from `main.rs`: change state and reset
the frame-in-state counter. -/
def set_new_state (psm : PlayerStateMachine) (s : BasicState) : PlayerStateMachine :=
  { psm with state := s, frame_count := 0 }

/-- `PlayerStateMachine::advance_frame` from `main.rs`: increment the
frame-in-state counter, then run the per-state natural-end table.  The match
arms appear in source order. -/
def advance_frame (psm : PlayerStateMachine) : PlayerStateMachine :=
  let psm := { psm with frame_count := psm.frame_count + 1 }
  if psm.state = .LandCrouch ∧ psm.frame_count = LANDING_LAG then
    psm.set_new_state .Idle
  else if psm.state = .Idle ∧ psm.frame_count = IDLE_CYCLE then
    -- "Blinky blinky": restart the idle animation cycle without a transition
    { psm with frame_count := 0 }
  else if psm.state = .Turnaround ∧ psm.frame_count = TURNAROUND_DURATION_FRAMES then
    psm.set_new_state .Idle
  else if psm.state = .Turnaround ∧ psm.frame_count = TURNAROUND_THRESHOLD_FRAME then
    { psm with facing := psm.facing.flip }
  else if psm.state = .RunTurnaround ∧ psm.frame_count = RUN_TURNAROUND_DURATION_FRAMES then
    psm.set_new_state .Run
  else if psm.state = .RunTurnaround ∧ psm.frame_count = RUN_TURNAROUND_THRESHOLD_FRAME then
    { psm with facing := psm.facing.flip }
  else if psm.state = .Airdodge ∧ psm.frame_count = AIRDODGE_DURATION_FRAMES then
    psm.set_new_state .IdleAirborne
  else if psm.state = .Dash ∧ psm.frame_count = DASH_DURATION then
    psm.set_new_state .Run
  else if psm.state = .RunEnd ∧ psm.frame_count = 2 then
    psm.set_new_state .Idle
  else
    psm

end PlayerStateMachine

end Psm

/-! ## Claim C1 -/

/-- Claim C1 counterexample: advancing an `Idle` actor past the idle animation
cycle (frame 239 → 240) resets the frame-in-state counter to 0 even though no
state transition is applied, refuting "the frame-in-state counter is 0 exactly
on the ticks on which a state transition is applied ... and no operation other
than applying a state transition resets it to 0". -/
theorem frame_counter_reset_without_transition :
    (Psm.PlayerStateMachine.advance_frame ⟨.Idle, .Right, 239⟩).frame_count = 0 ∧
    (Psm.PlayerStateMachine.advance_frame ⟨.Idle, .Right, 239⟩).state = Psm.BasicState.Idle := by
  constructor <;> rfl

/-- Claim C1 (amended): after `advance_frame`, the frame-in-state counter is 0
iff either a state transition was applied this tick, or the actor is `Idle`
and the idle-animation cycle wrapped at frame `IDLE_CYCLE` (240) — the one
reset not caused by a transition; on every other tick the counter increases by
exactly 1 and the state is unchanged. -/
theorem frame_counter_tick_spec (psm : Psm.PlayerStateMachine) :
    ((psm.advance_frame.frame_count = 0 ↔
        psm.advance_frame.state ≠ psm.state ∨
          (psm.state = Psm.BasicState.Idle ∧
            psm.frame_count + 1 = Psm.PlayerStateMachine.IDLE_CYCLE)) ∧
      (psm.advance_frame.frame_count ≠ 0 →
        psm.advance_frame.frame_count = psm.frame_count + 1 ∧
          psm.advance_frame.state = psm.state)) := by
  obtain ⟨s, f, n⟩ := psm
  simp only [Psm.PlayerStateMachine.advance_frame, Psm.PlayerStateMachine.set_new_state]
  rcases s <;>
    simp_all [Psm.PlayerStateMachine.LANDING_LAG, Psm.PlayerStateMachine.IDLE_CYCLE,
      Psm.PlayerStateMachine.TURNAROUND_DURATION_FRAMES,
      Psm.PlayerStateMachine.TURNAROUND_THRESHOLD_FRAME,
      Psm.PlayerStateMachine.RUN_TURNAROUND_DURATION_FRAMES,
      Psm.PlayerStateMachine.RUN_TURNAROUND_THRESHOLD_FRAME,
      Psm.PlayerStateMachine.AIRDODGE_DURATION_FRAMES,
      Psm.PlayerStateMachine.DASH_DURATION] <;>
    split_ifs <;> simp_all

/-! ## Claim C2 -/

/-- Claim C2 counterexample: at frame-in-state 15 — which equals
`AIRDODGE_DURATION_FRAMES` — an airdodging actor is intangible, so the
intangibility window is not a strict interior subset of the duration (it
includes the final frame). -/
theorem airdodge_intangible_at_final_frame :
    FSt.is_intangible (FSt.FighterState.Airdodge Vec2.zero) 15 = true ∧
    ¬ (15 < FSt.AIRDODGE_DURATION_FRAMES) := by
  constructor
  · rfl
  · decide

/-- Claim C2 (amended): in the `Airdodge` state intangibility holds exactly on
frames `AIRDODGE_INTANGIBLE_START = 4` through `AIRDODGE_INTANGIBLE_END = 15`
inclusive; hence an intangible frame `f` satisfies `0 < f` and
`f ≤ AIRDODGE_DURATION_FRAMES` (the window excludes frame 0 but includes the
final frame 15 of the 15-frame dodge); in every non-`Airdodge` state
intangibility is false for all frames. -/
theorem is_intangible_spec (s : FSt.FighterState) (f : Nat) :
    ((∀ v, FSt.is_intangible (.Airdodge v) f = true ↔ 4 ≤ f ∧ f ≤ 15) ∧
      (FSt.is_intangible s f = true → 0 < f ∧ f ≤ FSt.AIRDODGE_DURATION_FRAMES) ∧
      ((∀ v, s ≠ .Airdodge v) → FSt.is_intangible s f = false)) := by
  refine ⟨fun v => ?_, ?_, ?_⟩
  · simp [FSt.is_intangible, FSt.AIRDODGE_INTANGIBLE_START, FSt.AIRDODGE_INTANGIBLE_END]
  · intro h
    cases s <;>
      simp_all [FSt.is_intangible, FSt.AIRDODGE_INTANGIBLE_START,
        FSt.AIRDODGE_INTANGIBLE_END, FSt.AIRDODGE_DURATION_FRAMES]
    omega
  · intro h
    cases s <;> simp_all [FSt.is_intangible]

/-- Witness for `is_intangible_spec` at the concrete state `Airdodge 0`,
frame 7: the window bounds hold and the frame is inside `(0, 15]`. -/
theorem is_intangible_spec_witness :
    FSt.is_intangible (.Airdodge Vec2.zero) 7 = true ∧
      0 < 7 ∧ 7 ≤ FSt.AIRDODGE_DURATION_FRAMES :=
  ⟨by decide, (is_intangible_spec (.Airdodge Vec2.zero) 7).2.1 (by decide)⟩

/-- Witness for `frame_counter_tick_spec` at a concrete `Walk` actor on
frame 5: the counter is nonzero after the tick, so it advanced by exactly 1
with the state unchanged. -/
theorem frame_counter_tick_spec_witness :
    (Psm.PlayerStateMachine.advance_frame ⟨.Walk, .Right, 5⟩).frame_count = 5 + 1 ∧
      (Psm.PlayerStateMachine.advance_frame ⟨.Walk, .Right, 5⟩).state = Psm.BasicState.Walk :=
  (frame_counter_tick_spec ⟨.Walk, .Right, 5⟩).2 (by decide)

/-! ## `src/input.rs` and `src/utils.rs`: input buffering and gesture
detection (claims C4, C5) -/

namespace Inp

def BUFFER_SIZE : Nat := 8
def CONTROL_STICK_DEADZONE_SIZE : ℚ := 1/4
def CONTROL_STICK_LIVEZONE_SIZE : ℚ := 1 - CONTROL_STICK_DEADZONE_SIZE
def STICK_HISTORY_SIZE : Nat := 30
def SMASH_INPUT_MAX_DURATION : Nat := 4
def SMASH_INPUT_THRESHOLD_DISTANCE_FROM_CENTRE : ℚ := 99/100
def HALF_CIRCLE_INPUT_THRESHOLD_DISTANCE : ℚ := 9/10
def HALF_CIRCLE_MAX_DURATION : Nat := 10

/-- `Action` from `input.rs`. -/
inductive Action where
  | Attack
  | Special
  | Shield
  | Grab
  | Jump
  | Taunt
deriving DecidableEq, Repr

/-- `CardinalDirection` from `utils.rs`. -/
inductive CardinalDirection where
  | Up
  | Right
  | Left
  | Down
deriving DecidableEq, Repr

/-- `CardinalDirection::flip` from `utils.rs`. -/
def CardinalDirection.flip : CardinalDirection → CardinalDirection
  | .Up => .Down
  | .Down => .Up
  | .Left => .Right
  | .Right => .Left

/-- `RotationDirection` from `input.rs`. -/
inductive RotationDirection where
  | Clockwise
  | CounterClockwise
deriving DecidableEq, Repr

/-- `DirectionalAction` from `input.rs`. -/
inductive DirectionalAction where
  | Smash (d : CardinalDirection)
  | HalfCircle (d : CardinalDirection) (r : RotationDirection)
deriving DecidableEq, Repr

/-- `BufferedInput<T>` from `input.rs`. -/
inductive BufferedInput (T : Type) where
  | None
  | Some (value : T) (stick : Vec2) (age : Nat)
deriving DecidableEq, Repr

/-- `BufferedInput::age_buffer` from `input.rs`. -/
def BufferedInput.age_buffer : BufferedInput T → BufferedInput T
  | .None => .None
  | .Some value stick age =>
      if BUFFER_SIZE ≤ age + 1 then .None else .Some value stick (age + 1)

/-- `Control` from `input.rs`.  The `EnumSet` of held actions becomes a list
with membership semantics; the `VecDeque` stick history is a list whose head
is the oldest sample (`push_back` appends at the tail). -/
structure Control where
  stick : Vec2
  action : BufferedInput Action
  directional_action : BufferedInput DirectionalAction
  held_actions : List Action
  previous_stick_positions : List Vec2
deriving DecidableEq, Repr

/-- `Control::has_action` from `input.rs`. -/
def Control.has_action (c : Control) (a : Action) : Bool :=
  match c.action with
  | .Some value _ _ => value = a
  | .None => false

/-- `Directed::get_cardinal_direction` for `Vec2` from `utils.rs`: `none` for
the zero stick, otherwise the dominant-axis cardinal. -/
def get_cardinal_direction (v : Vec2) : Option CardinalDirection :=
  if v = Vec2.zero then none
  else if |v.y| > |v.x| then
    if 0 < v.y then some .Up else some .Down
  else if 0 < v.x then some .Right else some .Left

theorem get_cardinal_direction_isSome {v : Vec2} (h : v ≠ Vec2.zero) :
    ∃ d, get_cardinal_direction v = some d := by
  unfold get_cardinal_direction
  split_ifs <;> simp_all

/-- The last `n` elements of a list (`itertools` `tail(n)`, used on the stick
history whose head is the oldest sample). -/
def tailN (n : Nat) (l : List α) : List α := l.drop (l.length - n)

/-- `detect_smash_input` from `input.rs`, acting on one `Control`.  The
source's comparisons `stick.length() < 0.99` and
`(prev - stick).length() >= 0.5` become comparisons of squared lengths with
squared bounds, which is equivalent since both bounds are non-negative. -/
def detect_smash_input (c : Control) : Control :=
  if Vec2.lenSq c.stick < SMASH_INPUT_THRESHOLD_DISTANCE_FROM_CENTRE ^ 2 then c
  else
    let is_smash_input :=
      (tailN SMASH_INPUT_MAX_DURATION c.previous_stick_positions).any
        (fun stick => decide (((1:ℚ)/2) ^ 2 ≤ Vec2.lenSq (stick - c.stick)))
    if is_smash_input then
      match get_cardinal_direction c.stick with
      | some d => { c with directional_action := .Some (.Smash d) c.stick 0 }
      | none => c
      -- the `none` arm models the source's `.expect(..)`; it is unreachable
      -- because the stick magnitude is at least the (positive) threshold
    else c

/-- Sign data of `Vec2::angle_between p1 p2 = atan2 (cross p1 p2) (dot p1 p2)`:
the exact `f32` test `angle == 0.0`.  `atan2` returns zero exactly when the
cross part is zero and the dot part is positive (both stick samples involved
are nonzero in every call site, having magnitude above the half-circle
threshold). -/
def angle_is_zero (p1 p2 : Vec2) : Bool :=
  Vec2.cross p1 p2 = 0 && 0 < Vec2.dot p1 p2

/-- The `f32::signum` of `Vec2::angle_between p1 p2` as an integer.  `atan2`
is negative exactly when the cross part is negative; otherwise the angle is
`+0.0`, positive, or `π`, all of which `f32::signum` maps to `1.0`. -/
def angle_signum (p1 p2 : Vec2) : Int :=
  if Vec2.cross p1 p2 < 0 then -1 else 1

/-- The inner `for i in 1..angles.len()` loop of `detect_half_circle_input`:
each element pairs `angles[i].signum()` with `positions[i + 1]`; the loop
stops with no gesture on a sign flip and reports a gesture on reaching the
opposite cardinal. -/
def half_circle_scan (sign : Int) (opposite : CardinalDirection) :
    List (Int × Vec2) → Bool
  | [] => false
  | (a, p) :: rest =>
    if a ≠ sign then false
    else
      match get_cardinal_direction p with
      | none => half_circle_scan sign opposite rest
      | some d => if d = opposite then true else half_circle_scan sign opposite rest

/-- The filtered recent-history chain used by `detect_half_circle_input`:
most recent sample first, at most `HALF_CIRCLE_MAX_DURATION` samples, stopping
at the first sample below the half-circle threshold (squared comparison of
`p.length() >= 0.90`). -/
def half_circle_prev_chain (c : Control) : List Vec2 :=
  (c.previous_stick_positions.reverse.take HALF_CIRCLE_MAX_DURATION).takeWhile
    (fun p => decide (HALF_CIRCLE_INPUT_THRESHOLD_DISTANCE ^ 2 ≤ Vec2.lenSq p))

/-- `detect_half_circle_input` from `input.rs`, acting on one `Control`.
`positions` is the current stick followed by the filtered history;
`angles[i]` is the signed angle between `positions[i]` and
`positions[i + 1]`, of which the source only consumes the `== 0.0` test on
`angles[0]` and the `f32::signum` of the rest. -/
def detect_half_circle_input (c : Control) : Control :=
  if Vec2.lenSq c.stick < HALF_CIRCLE_INPUT_THRESHOLD_DISTANCE ^ 2 then c
  else
    match get_cardinal_direction c.stick with
    | none => c
    | some cur_direction =>
      let opposite_direction := cur_direction.flip
      let positions := c.stick :: half_circle_prev_chain c
      match positions with
      | _ :: p1 :: _ =>
        if angle_is_zero c.stick p1 then c
        else
          let sign := angle_signum c.stick p1
          let tagged :=
            ((positions.zip (positions.drop 1)).drop 1).map
              (fun pr => (angle_signum pr.1 pr.2, pr.2))
          if half_circle_scan sign opposite_direction tagged then
            let rotation :=
              if sign = 1 then RotationDirection.Clockwise
              else RotationDirection.CounterClockwise
            { c with
              directional_action := .Some (.HalfCircle cur_direction rotation) c.stick 0,
              previous_stick_positions := [] }
          else c
      | _ => c

end Inp

/-! ## Claim C4 -/

/-- Claim C4: on an input-buffer update tick, if the clamped stick magnitude
is at least the 0.99 threshold and some sample among the last 4 recorded
stick samples differs from the current stick by at least 0.5 (half the
livezone span), `detect_smash_input` buffers a Smash gesture carrying the
stick's dominant-axis cardinal direction with age 0; if the magnitude is
below the threshold or no such sample exists, the directional-gesture buffer
is left unchanged (no Smash gesture is buffered). -/
theorem detect_smash_input_spec (c : Inp.Control) :
    ((Inp.SMASH_INPUT_THRESHOLD_DISTANCE_FROM_CENTRE ^ 2 ≤ Vec2.lenSq c.stick →
        (∃ s ∈ Inp.tailN Inp.SMASH_INPUT_MAX_DURATION c.previous_stick_positions,
            ((1:ℚ)/2) ^ 2 ≤ Vec2.lenSq (s - c.stick)) →
        ∃ d, Inp.get_cardinal_direction c.stick = some d ∧
          (Inp.detect_smash_input c).directional_action =
            .Some (.Smash d) c.stick 0) ∧
      (Vec2.lenSq c.stick < Inp.SMASH_INPUT_THRESHOLD_DISTANCE_FROM_CENTRE ^ 2 ∨
          (∀ s ∈ Inp.tailN Inp.SMASH_INPUT_MAX_DURATION c.previous_stick_positions,
            Vec2.lenSq (s - c.stick) < ((1:ℚ)/2) ^ 2) →
        (Inp.detect_smash_input c).directional_action = c.directional_action)) := by
  constructor
  · intro hmag hsample
    have hne : c.stick ≠ Vec2.zero := by
      intro h0
      rw [h0] at hmag
      simp [Vec2.lenSq, Vec2.zero, Inp.SMASH_INPUT_THRESHOLD_DISTANCE_FROM_CENTRE] at hmag
      norm_num at hmag
    obtain ⟨d, hd⟩ := Inp.get_cardinal_direction_isSome hne
    refine ⟨d, hd, ?_⟩
    unfold Inp.detect_smash_input
    rw [if_neg (by exact not_lt.mpr hmag)]
    have hany :
        (Inp.tailN Inp.SMASH_INPUT_MAX_DURATION c.previous_stick_positions).any
          (fun stick => decide (((1:ℚ)/2) ^ 2 ≤ Vec2.lenSq (stick - c.stick))) = true := by
      rw [List.any_eq_true]
      obtain ⟨s, hs, hdist⟩ := hsample
      exact ⟨s, hs, by simpa using hdist⟩
    simp only [hany, if_true, hd]
  · intro h
    unfold Inp.detect_smash_input
    rcases h with hmag | hall
    · rw [if_pos hmag]
    · by_cases hmag : Vec2.lenSq c.stick < Inp.SMASH_INPUT_THRESHOLD_DISTANCE_FROM_CENTRE ^ 2
      · rw [if_pos hmag]
      · rw [if_neg hmag]
        have hany :
            (Inp.tailN Inp.SMASH_INPUT_MAX_DURATION c.previous_stick_positions).any
              (fun stick => decide (((1:ℚ)/2) ^ 2 ≤ Vec2.lenSq (stick - c.stick))) = false := by
          rw [List.any_eq_false]
          intro s hs
          simpa using not_le.mpr (hall s hs)
        simp only [hany]
        rfl

/-- Witness for `detect_smash_input_spec` at a concrete control: stick fully
right with a recent neutral sample buffers `Smash Right` with age 0. -/
theorem detect_smash_input_spec_witness :
    ∃ d, Inp.get_cardinal_direction (⟨1, 0⟩ : Vec2) = some d ∧
      (Inp.detect_smash_input
          ⟨⟨1, 0⟩, .None, .None, [], [⟨0, 0⟩]⟩).directional_action =
        .Some (.Smash d) (⟨1, 0⟩ : Vec2) 0 :=
  (detect_smash_input_spec ⟨⟨1, 0⟩, .None, .None, [], [⟨0, 0⟩]⟩).1
    (by norm_num [Vec2.lenSq, Inp.SMASH_INPUT_THRESHOLD_DISTANCE_FROM_CENTRE])
    ⟨⟨0, 0⟩, by decide, by norm_num [Vec2.lenSq]⟩

/-! ## Claim C5 -/

/-- Helper: dropping one element of a zip is the zip of the dropped lists. -/
theorem zip_drop_one {α β : Type} (l1 : List α) (l2 : List β) :
    (l1.zip l2).drop 1 = (l1.drop 1).zip (l2.drop 1) := by
  cases l1 with
  | nil => simp
  | cons a t1 =>
    cases l2 with
    | nil => simp
    | cons b t2 => simp [List.zip_cons_cons]

/-- Helper: a successful half-circle scan passed over some element whose stick
sample points at the opposite cardinal. -/
theorem half_circle_scan_mem {sign : Int} {opp : Inp.CardinalDirection} :
    ∀ {l : List (Int × Vec2)}, Inp.half_circle_scan sign opp l = true →
      ∃ e ∈ l, Inp.get_cardinal_direction e.2 = some opp := by
  intro l
  induction l with
  | nil => intro h; simp [Inp.half_circle_scan] at h
  | cons hd tl ih =>
    intro h
    obtain ⟨a, p⟩ := hd
    simp only [Inp.half_circle_scan] at h
    by_cases ha : a ≠ sign
    · rw [if_pos ha] at h
      exact absurd h (by simp)
    · rw [if_neg ha] at h
      cases hdir : Inp.get_cardinal_direction p with
      | none =>
        rw [hdir] at h
        dsimp only at h
        obtain ⟨e, he, hopp⟩ := ih h
        exact ⟨e, List.mem_cons_of_mem _ he, hopp⟩
      | some d =>
        rw [hdir] at h
        dsimp only at h
        by_cases hdo : d = opp
        · exact ⟨(a, p), List.mem_cons_self _ _, by rw [hdir, hdo]⟩
        · rw [if_neg hdo] at h
          obtain ⟨e, he, hopp⟩ := ih h
          exact ⟨e, List.mem_cons_of_mem _ he, hopp⟩

/-- Claim C5 counterexample: an input history whose crossing to the opposite
cardinal happens in a single frame — the first previous sample `(-19/20, 1/10)`
is already on the opposite (Left) side of the current stick `(1, 0)` — still
buffers a HalfCircle gesture, because a deeper sample also lies on the
opposite side; the claim says such a path must never register as HalfCircle. -/
theorem half_circle_buffered_despite_single_frame_crossing :
    Inp.get_cardinal_direction (⟨-19/20, 1/10⟩ : Vec2) =
        some (Inp.CardinalDirection.Right.flip) ∧
      (Inp.detect_half_circle_input
          ⟨⟨1, 0⟩, .None, .None, [], [⟨-19/20, 1/20⟩, ⟨-19/20, 1/10⟩]⟩).directional_action =
        .Some (.HalfCircle .Right .Clockwise) (⟨1, 0⟩ : Vec2) 0 := by
  constructor
  · norm_num [Inp.get_cardinal_direction, Vec2.zero, Inp.CardinalDirection.flip,
      abs_eq_max_neg, max_def]
  · norm_num [Inp.detect_half_circle_input, Inp.half_circle_prev_chain,
      Inp.angle_is_zero, Inp.angle_signum, Inp.half_circle_scan,
      Inp.get_cardinal_direction, Inp.CardinalDirection.flip,
      Inp.HALF_CIRCLE_INPUT_THRESHOLD_DISTANCE, Inp.HALF_CIRCLE_MAX_DURATION,
      Vec2.lenSq, Vec2.cross, Vec2.dot, Vec2.zero, abs_eq_max_neg, max_def]

/-- Helper: a successful scan over the tagged angle list of
`stick :: p1 :: tail` finds its opposite-cardinal sample in `tail` (indices of
`positions` from 2 on). -/
theorem half_circle_tagged_mem {sign : Int} {opp : Inp.CardinalDirection}
    {stick p1 : Vec2} {tail : List Vec2}
    (hscan : Inp.half_circle_scan sign opp
      ((((stick :: p1 :: tail).zip ((stick :: p1 :: tail).drop 1)).drop 1).map
        (fun pr => (Inp.angle_signum pr.1 pr.2, pr.2))) = true) :
    ∃ p ∈ tail, Inp.get_cardinal_direction p = some opp := by
  obtain ⟨e, he, hopp⟩ := half_circle_scan_mem hscan
  obtain ⟨pr, hpr, hpe⟩ := List.mem_map.mp he
  rw [zip_drop_one] at hpr
  have hmem2 : pr.2 ∈ tail := by
    have := (List.of_mem_zip hpr).2
    simpa using this
  refine ⟨pr.2, hmem2, ?_⟩
  rw [← hpe] at hopp
  exact hopp

/-- Claim C5 (amended): a HalfCircle gesture is buffered only when the scan —
which skips the first angular step — finds a sample at the cardinal opposite
the current stick strictly deeper in the filtered history than the first
previous sample (the first previous sample alone never triggers the gesture,
that crossing being reserved for Smash; but it does not prevent buffering
when a deeper sample also lies on the opposite side). -/
theorem half_circle_requires_deeper_sample (c : Inp.Control)
    (h : (Inp.detect_half_circle_input c).directional_action ≠ c.directional_action) :
    ∃ cur, Inp.get_cardinal_direction c.stick = some cur ∧
      ∃ p ∈ (Inp.half_circle_prev_chain c).drop 1,
        Inp.get_cardinal_direction p = some cur.flip := by
  unfold Inp.detect_half_circle_input at h
  split at h
  · exact absurd rfl h
  · split at h
    · exact absurd rfl h
    · rename_i cur hcur
      refine ⟨cur, hcur, ?_⟩
      dsimp only at h
      generalize hgen : Inp.half_circle_prev_chain c = chain at h ⊢
      cases chain with
      | nil => exact absurd rfl h
      | cons p1 tail =>
        dsimp only at h
        by_cases hz : Inp.angle_is_zero c.stick p1 = true
        · rw [if_pos hz] at h
          exact absurd rfl h
        · rw [if_neg hz] at h
          by_cases hsign : Inp.angle_signum c.stick p1 = 1
          · rw [if_pos hsign] at h
            split at h
            · rename_i hscan
              simpa using half_circle_tagged_mem hscan
            · exact absurd rfl h
          · rw [if_neg hsign] at h
            split at h
            · rename_i hscan
              simpa using half_circle_tagged_mem hscan
            · exact absurd rfl h

/-- Witness for `half_circle_requires_deeper_sample`: the same concrete input
history as the counterexample changes the directional buffer, and indeed its
second previous sample points at the opposite cardinal. -/
theorem half_circle_requires_deeper_sample_witness :
    ∃ cur, Inp.get_cardinal_direction (⟨1, 0⟩ : Vec2) = some cur ∧
      ∃ p ∈ (Inp.half_circle_prev_chain
          ⟨⟨1, 0⟩, .None, .None, [], [⟨-19/20, 1/20⟩, ⟨-19/20, 1/10⟩]⟩).drop 1,
        Inp.get_cardinal_direction p = some cur.flip :=
  half_circle_requires_deeper_sample
    ⟨⟨1, 0⟩, .None, .None, [], [⟨-19/20, 1/20⟩, ⟨-19/20, 1/10⟩]⟩ (by
      norm_num [Inp.detect_half_circle_input, Inp.half_circle_prev_chain,
        Inp.angle_is_zero, Inp.angle_signum, Inp.half_circle_scan,
        Inp.get_cardinal_direction, Inp.CardinalDirection.flip,
        Inp.HALF_CIRCLE_INPUT_THRESHOLD_DISTANCE, Inp.HALF_CIRCLE_MAX_DURATION,
        Vec2.lenSq, Vec2.cross, Vec2.dot, Vec2.zero, abs_eq_max_neg, max_def]
      simp)

/-! ## `src/fighter_state.rs`: transition rules and buffer clearing
(claims C3, C9) -/

namespace FSt

/-- `StateEnd` from `fighter_state.rs`. -/
inductive StateEnd where
  | None
  | OnFrame (frame : Nat) (next_state : FighterState)

/-- `IASA` ("interruptible as soon as") from `fighter_state.rs`: a frame
threshold and the interrupt function.  The source's `StateGetter` receives an
`InterruptPlayerData` bundling the control state, the current state and ECS
world access; the embedding passes the control and state explicitly and leaves
the function abstract. -/
structure IASA where
  frame : Nat
  state_getter : Inp.Control → FighterState → Option FighterState

/-- `FighterStateTransition` from `fighter_state.rs` (`end` is a Lean keyword
and is renamed `stateEnd`). -/
structure FighterStateTransition where
  stateEnd : StateEnd
  iasa : Option IASA

/-- The per-target-state buffer-clearing `match` inside the interrupt branch
of `apply_state_transition` (`fighter_state.rs`), factored into a named
function. -/
def clear_buffers_for (new_state : FighterState) (control : Inp.Control) : Inp.Control :=
  match new_state with
  | .Dash | .Moonwalk => { control with directional_action := .None }
  | .Airdodge _ => { control with directional_action := .None, action := .None }
  | _ => { control with action := .None }

/-- `apply_state_transition` from `fighter_state.rs` for one actor, returning
the updated state, frame-in-state counter and control.  The source's
`props.iasa.as_ref().filter(|iasa| iasa.frame <= frame_number).and_then(..)`
is the `Option.bind` below; the natural-end branch runs only when the
interrupt produced no state and clears no buffers. -/
def apply_state_transition (props : FighterStateTransition) (control : Inp.Control)
    (state : FighterState) (frame_number : Nat) :
    FighterState × Nat × Inp.Control :=
  match props.iasa.bind (fun iasa =>
      if iasa.frame ≤ frame_number then iasa.state_getter control state else none) with
  | some new_state => (new_state, 0, clear_buffers_for new_state control)
  | none =>
    match props.stateEnd with
    | .OnFrame frame next_state =>
      if frame ≤ frame_number then (next_state, 0, control)
      else (state, frame_number, control)
    | .None => (state, frame_number, control)

/-- `Vec2::normalize_or_zero`, used by `try_airdodge`: the zero vector maps
to zero (the guarded path); a nonzero vector is returned up to the positive
factor `1 / length` — the unit-length scaling is irrational over `ℚ` and no
verified claim consumes it, only the zero-guard is semantically relevant. -/
def normalize_or_zero (v : Vec2) : Vec2 :=
  if Vec2.lenSq v = 0 then Vec2.zero else v

/-- `try_airdodge` from `fighter_state.rs`. -/
def try_airdodge (control : Inp.Control) : Option FighterState :=
  if control.has_action .Shield then
    some (.Airdodge (normalize_or_zero control.stick))
  else none

end FSt

/-! ## Claim C3 -/

/-- Claim C3 counterexample: a natural-end (`StateEnd::OnFrame`) transition —
here `Airdodge` running out into `IdleAirborne` at frame 15 — leaves the
buffered discrete action untouched, although the claim requires every
transition into a non-Dash/Moonwalk/Airdodge target to clear the
discrete-action buffer. -/
theorem natural_end_transition_keeps_action_buffer :
    (FSt.apply_state_transition ⟨.OnFrame 15 .IdleAirborne, none⟩
        ⟨Vec2.zero, .Some .Attack Vec2.zero 0, .None, [], []⟩
        (.Airdodge Vec2.zero) 15) =
      (.IdleAirborne, 0, ⟨Vec2.zero, .Some .Attack Vec2.zero 0, .None, [], []⟩) ∧
    (Inp.BufferedInput.Some Inp.Action.Attack Vec2.zero 0 : Inp.BufferedInput Inp.Action) ≠
      .None := by
  constructor
  · rfl
  · simp

/-- Claim C3 (amended): only interrupt (IASA) transitions clear input buffers,
and they do so according to the per-target-state policy — entering Dash or
Moonwalk clears only the directional-gesture buffer, entering Airdodge clears
both buffers, and every other interrupt target clears only the discrete-action
buffer; a natural-end (`StateEnd::OnFrame`) transition sets the new state and
resets the frame counter but clears no buffer at all. -/
theorem apply_state_transition_spec (props : FSt.FighterStateTransition)
    (control : Inp.Control) (state : FSt.FighterState) (frame_number : Nat) :
    ((∀ ns, props.iasa.bind (fun iasa =>
          if iasa.frame ≤ frame_number then iasa.state_getter control state else none) =
            some ns →
        FSt.apply_state_transition props control state frame_number =
          (ns, 0, FSt.clear_buffers_for ns control)) ∧
      (∀ ns c, ns = FSt.FighterState.Dash ∨ ns = FSt.FighterState.Moonwalk →
        (FSt.clear_buffers_for ns c).directional_action = .None ∧
          (FSt.clear_buffers_for ns c).action = c.action) ∧
      (∀ v c, (FSt.clear_buffers_for (.Airdodge v) c).directional_action = .None ∧
        (FSt.clear_buffers_for (.Airdodge v) c).action = .None) ∧
      (∀ ns c, ns ≠ FSt.FighterState.Dash → ns ≠ FSt.FighterState.Moonwalk →
        (∀ v, ns ≠ FSt.FighterState.Airdodge v) →
        (FSt.clear_buffers_for ns c).action = .None ∧
          (FSt.clear_buffers_for ns c).directional_action = c.directional_action) ∧
      (props.iasa.bind (fun iasa =>
          if iasa.frame ≤ frame_number then iasa.state_getter control state else none) =
            none →
        ∀ f ns, props.stateEnd = .OnFrame f ns → f ≤ frame_number →
          FSt.apply_state_transition props control state frame_number = (ns, 0, control))) := by
  refine ⟨?_, ?_, ?_, ?_, ?_⟩
  · intro ns hns
    unfold FSt.apply_state_transition
    rw [hns]
  · rintro ns c (rfl | rfl) <;> exact ⟨rfl, rfl⟩
  · intro v c
    exact ⟨rfl, rfl⟩
  · intro ns c hd hm ha
    cases ns <;> first
      | exact ⟨rfl, rfl⟩
      | exact absurd rfl hd
      | exact absurd rfl hm
      | exact absurd rfl (ha _)
  · intro hnone f ns hend hf
    unfold FSt.apply_state_transition
    rw [hnone, hend]
    dsimp only
    rw [if_pos hf]

/-- Witness for `apply_state_transition_spec`: a concrete interrupt into Dash
at frame 0 clears exactly the directional buffer. -/
theorem apply_state_transition_spec_witness :
    FSt.apply_state_transition
        ⟨.None, some ⟨0, fun _ _ => some .Dash⟩⟩
        ⟨Vec2.zero, .Some .Attack Vec2.zero 0, .Some (.Smash .Right) Vec2.zero 0, [], []⟩
        .Idle 0 =
      (.Dash, 0, FSt.clear_buffers_for .Dash
        ⟨Vec2.zero, .Some .Attack Vec2.zero 0, .Some (.Smash .Right) Vec2.zero 0, [], []⟩) :=
  (apply_state_transition_spec
      ⟨.None, some ⟨0, fun _ _ => some .Dash⟩⟩
      ⟨Vec2.zero, .Some .Attack Vec2.zero 0, .Some (.Smash .Right) Vec2.zero 0, [], []⟩
      .Idle 0).1 .Dash rfl

/-! ## `src/physics.rs`: collider pushback and the airborne flag
(claims C6, C7) -/

namespace Phys

/-- `Collider` from `physics.rs`. -/
structure Collider where
  normal : Vec2
  breadth : ℚ

/-- `Collider::get_pushback` from `physics.rs`.  `position` and `centre` are
the `.xy` projections of the source's `Vec3` translations.  The source's
final test `distance_from_centre > self.breadth * 0.5` compares the Euclidean
length `sqrt (lenSq (b_0 - c))` against the bound; the embedding states the
complementary admission condition as "the bound is non-negative and the
squared length is at most the squared bound", which is equivalent over the
reals. -/
def Collider.get_pushback (c : Collider) (position : Vec2) (displacement : Vec2)
    (centre : Vec2) : Option Vec2 :=
  let p := position
  let ct := centre
  let denominator := Vec2.dot c.normal displacement
  -- If denominator is 0, velocity is parallel to collider
  -- If denominator is greater than 0, we're moving away from the collider
  if 0 ≤ denominator then none
  else
    let numerator := Vec2.dot c.normal (ct - p)
    let t := numerator / denominator
    if t < 0 ∨ 1 < t then none
    else
      let b_0 := p + t • displacement
      if ¬ (0 ≤ c.breadth * (1/2) ∧
            Vec2.lenSq (b_0 - ct) ≤ (c.breadth * (1/2)) ^ 2) then none
      else some (((t - 1) * Vec2.dot displacement c.normal) • c.normal)

end Phys

/-! ## Claim C6 -/

/-- Claim C6 counterexample: with a collider of breadth 2 centred at the
origin with upward normal, a fall from `(3/2, 1)` by `(0, -2)` crosses the
collider's line at `t = 1/2` at the point `(3/2, 0)`, within distance
`3/2 ≤ breadth = 2` of the centre, moving into the collider — all three
conditions of the claim hold — yet `get_pushback` returns `none`, because the
code admits crossings only within `breadth * 0.5 = 1` of the centre. -/
theorem get_pushback_none_within_breadth :
    Phys.Collider.get_pushback ⟨⟨0, 1⟩, 2⟩ ⟨3/2, 1⟩ ⟨0, -2⟩ ⟨0, 0⟩ = none ∧
      Vec2.dot (⟨0, 1⟩ : Vec2) ⟨0, -2⟩ < 0 ∧
      Vec2.dot (⟨0, 1⟩ : Vec2) ((⟨0, 0⟩ : Vec2) - ⟨3/2, 1⟩) /
          Vec2.dot (⟨0, 1⟩ : Vec2) ⟨0, -2⟩ = 1/2 ∧
      (0 ≤ (1/2 : ℚ) ∧ (1/2 : ℚ) ≤ 1) ∧
      Vec2.lenSq ((⟨3/2, 1⟩ : Vec2) + ((1/2 : ℚ) • ⟨0, -2⟩) - ⟨0, 0⟩) ≤ (2 : ℚ) ^ 2 := by
  refine ⟨?_, by norm_num [Vec2.dot], by norm_num [Vec2.dot], by norm_num,
    by norm_num [Vec2.lenSq]⟩
  norm_num [Phys.Collider.get_pushback, Vec2.dot, Vec2.lenSq]

/-- Claim C6 (amended): `get_pushback` returns `Some` iff the displacement
moves into the collider (`normal ⬝ displacement < 0`), the parametric
crossing time `t` lies within `[0, 1]`, and the crossing point lies within
half the collider's breadth of its centre (`breadth` is the full segment
length, so the half-length bound is `breadth * 0.5`, not `breadth`). -/
theorem get_pushback_some_iff (c : Phys.Collider) (position displacement centre : Vec2) :
    ((∃ v, Phys.Collider.get_pushback c position displacement centre = some v) ↔
      (Vec2.dot c.normal displacement < 0 ∧
        0 ≤ Vec2.dot c.normal (centre - position) / Vec2.dot c.normal displacement ∧
        Vec2.dot c.normal (centre - position) / Vec2.dot c.normal displacement ≤ 1 ∧
        0 ≤ c.breadth * (1/2) ∧
        Vec2.lenSq
            (position +
              (Vec2.dot c.normal (centre - position) /
                Vec2.dot c.normal displacement) • displacement - centre) ≤
          (c.breadth * (1/2)) ^ 2)) := by
  unfold Phys.Collider.get_pushback
  dsimp only
  split_ifs with h1 h2 h3
  · constructor
    · rintro ⟨v, hv⟩
      simp at hv
    · rintro ⟨hd, -, -, -, -⟩
      exact absurd h1 (not_le.mpr hd)
  · constructor
    · rintro ⟨v, hv⟩
      simp at hv
    · rintro ⟨-, h0, hle1, -, -⟩
      rcases h2 with h | h
      · exact absurd h0 (not_le.mpr h)
      · exact absurd hle1 (not_le.mpr h)
  · constructor
    · intro _
      push_neg at h2
      exact ⟨not_le.mp h1, h2.1, h2.2, h3.1, h3.2⟩
    · intro _
      exact ⟨_, rfl⟩
  · constructor
    · rintro ⟨v, hv⟩
      simp at hv
    · rintro ⟨-, -, -, hb, hlen⟩
      exact (h3 ⟨hb, hlen⟩).elim

/-! ## `src/fighter.rs`: fighter states, the landing/airborne reaction, and
the damage resolver (claims C7, C8) -/

namespace Ftr

/-- The `FighterState` enum of `fighter.rs` (the rewrite claim C7 cites: no
`Moonwalk`, payload-free `Airdodge`). -/
inductive FighterState where
  | Idle
  | Crouch
  | EnterCrouch
  | ExitCrouch
  | Turnaround
  | RunTurnaround
  | LandCrouch
  | IdleAirborne
  | JumpSquat
  | Walk
  | Dash
  | Run
  | RunEnd
  | Airdodge
  | Attack
deriving DecidableEq, Repr

/-- `FighterState::is_grounded` from `fighter.rs`. -/
def FighterState.is_grounded (s : FighterState) : Bool :=
  match s with
  | .Idle | .LandCrouch | .JumpSquat | .Walk | .Turnaround | .RunTurnaround
  | .RunEnd | .Dash | .Run | .Crouch | .EnterCrouch | .ExitCrouch => true
  | _ => false

/-- `displace_and_return_pushback` from `physics.rs` for one actor: the
pushback of the first collider (in iteration order) whose sweep test accepts,
or zero; the new position is displaced by `displacement + pushback`.  Returns
(new position, pushback). -/
def displace_and_return_pushback (position displacement : Vec2)
    (colliders : List (Phys.Collider × Vec2)) : Vec2 × Vec2 :=
  let pushback :=
    ((colliders.filterMap fun cc =>
        Phys.Collider.get_pushback cc.1 position displacement cc.2).head?).getD Vec2.zero
  (position + (displacement + pushback), pushback)

/-- `update_fighter_state` from `fighter.rs` for one actor: fold the pending
`FighterStateUpdate` events in the order they were sent; each one overwrites
the state and resets the frame-in-state counter to 0. -/
def update_fighter_state (events : List FighterState)
    (state : FighterState) (frame : Nat) : FighterState × Nat :=
  events.foldl (fun _ e => (e, 0)) (state, frame)

/-- The `FighterStateUpdate` events sent by `land` (`fighter.rs`) for one
actor this tick.  `apply_velocity` emits a `Collision` event only when the
pushback is nonzero, carrying `normal = pushback.normalize()`; `normal.x ≠ 0`
and `normal.y ≤ 0` hold iff `pushback.x ≠ 0` and `pushback.y ≤ 0` (the
normalisation scales by the positive factor `1 / length`), so the test is
stated on the pushback directly. -/
def land_events (pushback : Vec2) (state : FighterState) : List FighterState :=
  if Vec2.lenSq pushback = 0 then []
  else if pushback.x ≠ 0 ∨ pushback.y ≤ 0 then []
  else
    match state with
    | .Airdodge | .IdleAirborne => [.LandCrouch]
    | _ => []

/-- The `FighterStateUpdate` events sent by `go_airborne` (`fighter.rs`) for
one actor: actors carrying the `Airborne` marker whose state is grounded are
sent to `IdleAirborne` unconditionally. -/
def go_airborne_events (airborne : Bool) (state : FighterState) : List FighterState :=
  if airborne && state.is_grounded then [.IdleAirborne] else []

/-- One actor's reaction phase (`FighterEventSet::React` in `fighter.rs`):
`land` and `go_airborne` run after the Act-phase systems have queued their
events and before `update_fighter_state` drains the queue, so their events are
appended last.  `apply_velocity` (`physics.rs`) marks the actor `Airborne`
exactly when `pushback.length() == 0.0`, i.e. when the pushback vector is
zero. -/
def react_phase (act_events : List FighterState) (pushback : Vec2)
    (state : FighterState) (frame : Nat) : FighterState × Nat :=
  let airborne := decide (Vec2.lenSq pushback = 0)
  update_fighter_state
    (act_events ++ land_events pushback state ++ go_airborne_events airborne state)
    state frame

end Ftr

/-! ## Claim C7 -/

/-- Helper: draining an event queue that ends with `e` yields `(e, 0)`. -/
theorem update_fighter_state_append_single (l : List Ftr.FighterState)
    (e : Ftr.FighterState) (s : Ftr.FighterState) (f : Nat) :
    Ftr.update_fighter_state (l ++ [e]) s f = (e, 0) := by
  unfold Ftr.update_fighter_state
  rw [List.foldl_append]
  rfl

/-- Claim C7: an actor in a grounded state whose physics sweep produced zero
pushback this tick (so `apply_velocity` marked it `Airborne`) is transitioned
to `IdleAirborne` with frame counter 0 by the reaction phase, regardless of
whatever transition events the Act-phase systems queued — the forced
transition bypasses every per-state end condition and interrupt window. -/
theorem grounded_zero_pushback_goes_airborne
    (act_events : List Ftr.FighterState) (position displacement : Vec2)
    (colliders : List (Phys.Collider × Vec2)) (state : Ftr.FighterState) (frame : Nat)
    (hg : state.is_grounded = true)
    (hpb : (Ftr.displace_and_return_pushback position displacement colliders).2 =
      Vec2.zero) :
    Ftr.react_phase act_events
        (Ftr.displace_and_return_pushback position displacement colliders).2
        state frame =
      (.IdleAirborne, 0) := by
  rw [hpb]
  unfold Ftr.react_phase Ftr.land_events Ftr.go_airborne_events
  have hz : Vec2.lenSq Vec2.zero = 0 := by norm_num [Vec2.lenSq, Vec2.zero]
  have hcond : (decide (Vec2.lenSq Vec2.zero = 0) && Ftr.FighterState.is_grounded state)
      = true := by
    rw [hg, hz]
    simp
  rw [if_pos hz]
  simp only [hcond, if_true, List.nil_append]
  exact update_fighter_state_append_single _ _ _ _

/-- Witness for `grounded_zero_pushback_goes_airborne`: a running actor over
no colliders — the sweep returns zero pushback — is forced to `IdleAirborne`
even with a pending Act-phase transition event to `Dash`. -/
theorem grounded_zero_pushback_goes_airborne_witness :
    Ftr.react_phase [.Dash]
        (Ftr.displace_and_return_pushback ⟨0, 0⟩ ⟨1, 0⟩ []).2 .Run 3 =
      (.IdleAirborne, 0) :=
  grounded_zero_pushback_goes_airborne [.Dash] ⟨0, 0⟩ ⟨1, 0⟩ [] .Run 3 rfl rfl

/-! ## Claim C8 -/

namespace Ftr

/-- `KnockbackAngle` from `hitbox.rs` (the rewrite accompanying `fighter.rs`;
its variant shape is fixed by the uses in `fighter.rs` and `megaman.rs`):
a fixed launch angle in clockwise degrees from 12 o'clock. -/
inductive KnockbackAngle where
  | Fixed (theta : ℚ)
deriving DecidableEq, Repr

/-- `HitboxPurpose` from `hitbox.rs` in the rewrite accompanying `fighter.rs`;
the `Damage` payload fields are fixed by the uses in `fighter.rs` and
`megaman.rs`. -/
inductive HitboxPurpose where
  | Body
  | Damage (percent base_knockback scale_knockback : ℚ) (angle : KnockbackAngle)
deriving DecidableEq, Repr

/-- Result of the damage resolver for one hit.  The source sets the target's
velocity to `Vec2::from_angle(launch_angle) * launch_speed * other_scale.xy()`
where `launch_angle = π/2 - theta.to_radians()`; since
`theta.to_radians() = theta * π / 180`, the angle equals
`π * (1/2 - theta/180)` and is recorded here in units of `π`
(`launch_angle_in_pi`), the cosine/sine being irrational over `ℚ`. -/
structure DamageResult where
  new_percent : ℚ
  launch_speed : ℚ
  launch_angle_in_pi : ℚ
  scale : Vec2
deriving DecidableEq, Repr

/-- `take_damage_from_hitbox_collision` from `fighter.rs` for one collision
event: a `Body` hitbox deals no damage; a `Damage` hitbox first adds its
percent to the target's accumulated percent, then computes the launch speed
from the post-addition percent. -/
def take_damage_from_hitbox_collision (purpose : HitboxPurpose)
    (fighter_percent weight : ℚ) (other_scale : Vec2) : Option DamageResult :=
  match purpose with
  | .Body => none
  | .Damage percent base_knockback scale_knockback angle =>
    let new_percent := fighter_percent + percent
    let launch_speed :=
      weight⁻¹ * (base_knockback + scale_knockback * new_percent * (1/100))
    let launch_angle_in_pi :=
      match angle with
      | .Fixed theta => 1/2 - theta / 180
    some ⟨new_percent, launch_speed, launch_angle_in_pi, other_scale⟩

end Ftr

/-- Claim C8: a Damage-purpose hitbox first adds its percent to the target's
accumulated damage; the launch speed is `(1/weight) * (base_knockback +
scale_knockback * percent * 0.01)` evaluated on the post-addition percent; the
launch direction is at angle `π/2` minus the hitbox's clockwise-from-vertical
angle in radians (`π * (1/2 - θ/180)`); and for positive weight and
non-negative scale knockback the launch speed is monotonically increasing in
the accumulated percent. -/
theorem take_damage_spec (percent base_knockback scale_knockback theta
    fighter_percent weight : ℚ) (other_scale : Vec2) :
    ((Ftr.take_damage_from_hitbox_collision
        (.Damage percent base_knockback scale_knockback (.Fixed theta))
        fighter_percent weight other_scale =
      some ⟨fighter_percent + percent,
        weight⁻¹ * (base_knockback +
          scale_knockback * (fighter_percent + percent) * (1/100)),
        1/2 - theta / 180, other_scale⟩) ∧
      (∀ p1 p2 : ℚ, 0 < weight → 0 ≤ scale_knockback → p1 ≤ p2 →
        weight⁻¹ * (base_knockback + scale_knockback * p1 * (1/100)) ≤
          weight⁻¹ * (base_knockback + scale_knockback * p2 * (1/100)))) := by
  constructor
  · rfl
  · intro p1 p2 hw hs h12
    have hwi : 0 ≤ weight⁻¹ := le_of_lt (inv_pos.mpr hw)
    apply mul_le_mul_of_nonneg_left _ hwi
    have h1 : scale_knockback * p1 ≤ scale_knockback * p2 :=
      mul_le_mul_of_nonneg_left h12 hs
    nlinarith

/-- Witness for `take_damage_spec`: a 5%-damage hitbox with base knockback 3,
scale knockback 2 and angle 45° on a weight-1 target at 10% — and the
monotonicity instance from 0% to 10%. -/
theorem take_damage_spec_witness :
    (Ftr.take_damage_from_hitbox_collision
        (.Damage 5 3 2 (.Fixed 45)) 10 1 ⟨2, 2⟩ =
      some ⟨10 + 5, (1 : ℚ)⁻¹ * (3 + 2 * (10 + 5) * (1/100)),
        1/2 - 45 / 180, ⟨2, 2⟩⟩) ∧
      (1 : ℚ)⁻¹ * (3 + 2 * 0 * (1/100)) ≤ (1 : ℚ)⁻¹ * (3 + 2 * 10 * (1/100)) :=
  ⟨(take_damage_spec 5 3 2 45 10 1 ⟨2, 2⟩).1,
    (take_damage_spec 5 3 2 45 10 1 ⟨2, 2⟩).2 0 10 (by norm_num) (by norm_num)
      (by norm_num)⟩

/-! ## `src/hitbox.rs`: overlap geometry (claims C9, C10) -/

namespace Hbx

/-- The slice of `bevy`'s `Transform` the hitbox geometry reads: the `.xy`
projection of the translation, the `.xy` projection of the rotation applied
to the unit `y` vector (the only vector `get_pill_geometric_data` rotates),
and the scale's `xy` components. -/
structure Transform where
  translation : Vec2
  rotY : Vec2
  scale : Vec2
deriving DecidableEq, Repr

/-- `Transform::from_xyz x y 0.0`: identity rotation and unit scale. -/
def Transform.from_xyz (x y : ℚ) : Transform := ⟨⟨x, y⟩, ⟨0, 1⟩, ⟨1, 1⟩⟩

/-- `get_pill_geometric_data` from `hitbox.rs`: the scaled minor radius and
the two core-segment endpoints.  In the source
`a = Vec3::new(0, major_radius, 0) * transform.scale` has `.xy`
`(0, major_radius * scale.y)`, so `rotation.mul_vec3(a).xy` is
`(major_radius * scale.y) • rotY`, and `rotated_b = -rotated_a`. -/
def get_pill_geometric_data (major_radius minor_radius : ℚ) (t : Transform) :
    ℚ × Vec2 × Vec2 :=
  let rotated_a := (major_radius * t.scale.y) • t.rotY
  (minor_radius * t.scale.y, rotated_a + t.translation, (-rotated_a) + t.translation)

/-- `Shape` from `hitbox.rs`. -/
inductive Shape where
  | Circle (r : ℚ)
  | Pill (major_radius minor_radius : ℚ)
deriving DecidableEq, Repr

/-- `NearestPass` from `hitbox.rs`, without the dead `midpoint` field.  The
source's `f32` field `distance` equals `Real.sqrt distSq - radSum` here:
every distance the geometry produces is a Euclidean length (a square root of
a rational) minus a sum of radii, and all comparisons the source performs on
distances happen between passes with the same `radSum`, where the ordering
coincides with the ordering of `distSq`. -/
structure NearestPass where
  distSq : ℚ
  radSum : ℚ
deriving DecidableEq, Repr

/-- `intersection_of_line_segments` from `hitbox.rs`, which the source
annotates with the Stack Overflow segment-intersection formula.  The result
pairs the source's `Option<Vec2>` with a Boolean that records whether any
division evaluated by the source had a zero denominator: `t` and `u` are
always computed as `cross (q - p) (s / r_cross_s)` and
`cross (p - q) (r / s_cross_r)` before any branch (equal to the quotients
below when the denominators are nonzero; with a zero denominator the IEEE
result is non-finite and is only consumed in the `r_cross_s ≠ 0` branch), and
the collinear branch divides by `r.dot r`, which is zero exactly for a
zero-length first segment, making `t0`/`t1` NaN so that every comparison on
them is false and no intersection is reported. -/
def intersection_of_line_segments (p1 p2 q1 q2 : Vec2) : Option Vec2 × Bool :=
  let p := p1
  let r := p2 - p1
  let q := q1
  let s := q2 - q1
  let r_cross_s := Vec2.cross r s
  let s_cross_r := Vec2.cross s r
  let q_minus_p_cross_r := Vec2.cross (q - p) r
  let dbz := decide (r_cross_s = 0) || decide (s_cross_r = 0) ||
    (decide (r_cross_s = 0 ∧ q_minus_p_cross_r = 0) && decide (Vec2.dot r r = 0))
  let result :=
    if r_cross_s = 0 ∧ q_minus_p_cross_r = 0 then
      -- Collinear
      if Vec2.dot r r = 0 then none
      else
        let t0 := Vec2.dot (q - p) r / Vec2.dot r r
        let t1 := Vec2.dot (q + s - p) r / Vec2.dot r r
        if 0 ≤ t0 ∧ t0 ≤ 1 then some (p + t0 • r)
        else if 0 ≤ t1 ∧ t1 ≤ 1 then some (p + t1 • r)
        else if (t0 < 0 ∧ 1 < t1) ∨ (t1 < 0 ∧ 1 < t0) then
          -- First line segment is fully contained in second one
          some p
        else none
    else if r_cross_s = 0 ∧ q_minus_p_cross_r ≠ 0 then
      -- Parallel and non-intersecting
      none
    else
      -- Divergent
      let t := Vec2.cross (q - p) s / r_cross_s
      let u := Vec2.cross (p - q) r / s_cross_r
      if 0 ≤ t ∧ t ≤ 1 ∧ 0 ≤ u ∧ u ≤ 1 then some (p + t • r) else none
  (result, dbz)

/-- The `[d_a, d_b, d_p].reduce(f32::min)` computation of the Circle–Pill arm
of `Shape::nearest_pass`, on squared lengths (minimisation of non-negative
lengths coincides with minimisation of their squares).  The source divides by
`(b - a).length_squared()` unconditionally; when the core axis is degenerate
the quotient `t` is NaN, the `0 ≤ t ≤ 1` test is false, and
`d_p = f32::INFINITY` is absorbed by the minimum, leaving the endpoint
distances. -/
def circle_pill_distSq (c a b : Vec2) : ℚ :=
  let d_a := Vec2.lenSq (c - a)
  let d_b := Vec2.lenSq (c - b)
  if Vec2.lenSq (b - a) = 0 then min d_a d_b
  else
    let t := Vec2.dot (c - a) (b - a) / Vec2.lenSq (b - a)
    if 0 ≤ t ∧ t ≤ 1 then
      min (min d_a d_b) (Vec2.lenSq (c - (a + t • (b - a))))
    else min d_a d_b

/-- The Circle–Pill arm of `Shape::nearest_pass`: `c` is the circle
transform's translation (its only component the arm reads), the circle radius
`r1` enters unscaled, and the pill contributes its scaled minor radius.  The
Boolean records whether the arm's division by `(b - a).length_squared()` had
a zero denominator. -/
def nearest_pass_circle_pill (r1 : ℚ) (c : Vec2) (major_radius minor_radius : ℚ)
    (t2 : Transform) : NearestPass × Bool :=
  let g := get_pill_geometric_data major_radius minor_radius t2
  (⟨circle_pill_distSq c g.2.1 g.2.2, r1 + g.1⟩,
    decide (Vec2.lenSq (g.2.2 - g.2.1) = 0))

/-- The Pill–Pill arm of `Shape::nearest_pass` on the geometric data
`(r1, a1, b1)`, `(r2, a2, b2)` of the two pills: distance `-r1 - r2` when the
core segments intersect, otherwise the minimum of the four endpoint-circle
sub-problems — all four of which carry the same radius sum `r1 + r2`, so the
source's `reduce(std::cmp::min)` over `NearestPass` distances coincides with
the minimum of the squared geometric distances. -/
def pill_pill_pass (r1 : ℚ) (a1 b1 : Vec2) (r2 : ℚ) (a2 b2 : Vec2) : NearestPass :=
  match (intersection_of_line_segments a1 b1 a2 b2).1 with
  | some _ => ⟨0, r1 + r2⟩
  | none =>
    ⟨min (min (min (circle_pill_distSq a1 a2 b2) (circle_pill_distSq b1 a2 b2))
          (circle_pill_distSq a2 a1 b1))
        (circle_pill_distSq b2 a1 b1),
      r1 + r2⟩

/-- `Shape::nearest_pass` from `hitbox.rs` (the `NearestPass` value; the dead
`midpoint` field is dropped).  The Pill–Circle arm delegates to the
Circle–Pill arm with swapped arguments exactly as the source does. -/
def nearest_pass (s1 : Shape) (t1 : Transform) (s2 : Shape) (t2 : Transform) :
    NearestPass :=
  match s1, s2 with
  | .Circle r1, .Circle r2 =>
    ⟨Vec2.lenSq (t1.translation - t2.translation),
      r1 * t1.scale.y + r2 * t2.scale.y⟩
  | .Circle r1, .Pill major_radius minor_radius =>
    (nearest_pass_circle_pill r1 t1.translation major_radius minor_radius t2).1
  | .Pill major_radius minor_radius, .Circle r2 =>
    -- No need to re-implement the wheel: Self::nearest_pass(s2, t2, s1, t1)
    (nearest_pass_circle_pill r2 t2.translation major_radius minor_radius t1).1
  | .Pill major_1 minor_1, .Pill major_2 minor_2 =>
    let g1 := get_pill_geometric_data major_1 minor_1 t1
    let g2 := get_pill_geometric_data major_2 minor_2 t2
    pill_pill_pass g1.1 g1.2.1 g1.2.2 g2.1 g2.2.1 g2.2.2

end Hbx

/-! ## Claim C9 -/

/-- Claim C9 counterexample: on the degenerate input with a zero-length first
segment — `p1 = p2 = (0,0)` against the segment from `(5,0)` to `(6,0)` — the
source evaluates `s / r_cross_s`, `r / s_cross_r` and `r / r.dot(r)` with
zero denominators (flag true), contradicting "never evaluate a division whose
denominator is zero"; the call still reports no intersection. -/
theorem intersection_divides_by_zero_on_degenerate :
    (Hbx.intersection_of_line_segments ⟨0, 0⟩ ⟨0, 0⟩ ⟨5, 0⟩ ⟨6, 0⟩).2 = true ∧
      (Hbx.intersection_of_line_segments ⟨0, 0⟩ ⟨0, 0⟩ ⟨5, 0⟩ ⟨6, 0⟩).1 = none := by
  constructor
  · norm_num [Hbx.intersection_of_line_segments, Vec2.cross, Vec2.dot]
  · norm_num [Hbx.intersection_of_line_segments, Vec2.cross, Vec2.dot]

/-- Claim C9 (amended): the guarded outcomes the claim names do hold — a
zero-length segment yields no intersection, a zero-length capsule core axis
yields the endpoint-circle distances, and a zero stick normalizes to the zero
vector — but the overlap-geometry functions reach the first two outcomes by
evaluating IEEE divisions with zero denominators whose non-finite results the
subsequent comparisons discard, rather than by explicit guards: on every such
degenerate input the division-by-zero flag is set.  Only the stick
normalization (`normalize_or_zero` in `try_airdodge`) is explicitly
guarded. -/
theorem division_guard_status :
    ((∀ p q1 q2 : Vec2,
        (Hbx.intersection_of_line_segments p p q1 q2).1 = none ∧
          (Hbx.intersection_of_line_segments p p q1 q2).2 = true) ∧
      (∀ (r1 : ℚ) (c : Vec2) (major_radius minor_radius : ℚ) (t2 : Hbx.Transform),
        Vec2.lenSq ((Hbx.get_pill_geometric_data major_radius minor_radius t2).2.2 -
            (Hbx.get_pill_geometric_data major_radius minor_radius t2).2.1) = 0 →
        Hbx.nearest_pass_circle_pill r1 c major_radius minor_radius t2 =
          (⟨min (Vec2.lenSq (c - (Hbx.get_pill_geometric_data major_radius minor_radius t2).2.1))
              (Vec2.lenSq (c - (Hbx.get_pill_geometric_data major_radius minor_radius t2).2.2)),
            r1 + (Hbx.get_pill_geometric_data major_radius minor_radius t2).1⟩, true)) ∧
      (FSt.normalize_or_zero Vec2.zero = Vec2.zero ∧
        ∀ ctl : Inp.Control, ctl.stick = Vec2.zero →
          ctl.has_action .Shield = true →
          FSt.try_airdodge ctl = some (.Airdodge Vec2.zero))) := by
  refine ⟨?_, ?_, ?_, ?_⟩
  · intro p q1 q2
    have hr : p - p = Vec2.zero := by
      cases p
      simp [Vec2.zero]
    constructor
    · unfold Hbx.intersection_of_line_segments
      dsimp only
      rw [hr]
      have hc1 : Vec2.cross Vec2.zero (q2 - q1) = 0 := by simp [Vec2.cross, Vec2.zero]
      have hc2 : Vec2.cross (q1 - p) Vec2.zero = 0 := by simp [Vec2.cross, Vec2.zero]
      have hd : Vec2.dot Vec2.zero Vec2.zero = 0 := by simp [Vec2.dot, Vec2.zero]
      rw [if_pos ⟨hc1, hc2⟩, if_pos hd]
    · unfold Hbx.intersection_of_line_segments
      dsimp only
      rw [hr]
      simp [Vec2.cross, Vec2.zero]
  · intro r1 c major_radius minor_radius t2 hdeg
    unfold Hbx.nearest_pass_circle_pill Hbx.circle_pill_distSq
    dsimp only
    rw [if_pos hdeg, decide_eq_true hdeg]
  · norm_num [FSt.normalize_or_zero, Vec2.lenSq, Vec2.zero]
  · intro ctl hstick hact
    unfold FSt.try_airdodge
    rw [hact, hstick]
    norm_num [FSt.normalize_or_zero, Vec2.lenSq, Vec2.zero]

/-- Witness for `division_guard_status` at concrete degenerate inputs: the
zero-length segment at the origin against `(5,0)-(6,0)`, and a zero-stick
airdodge with a buffered Shield action. -/
theorem division_guard_status_witness :
    ((Hbx.intersection_of_line_segments ⟨0, 0⟩ ⟨0, 0⟩ ⟨5, 0⟩ ⟨6, 0⟩).1 = none ∧
        (Hbx.intersection_of_line_segments ⟨0, 0⟩ ⟨0, 0⟩ ⟨5, 0⟩ ⟨6, 0⟩).2 = true) ∧
      FSt.try_airdodge ⟨Vec2.zero, .Some .Shield Vec2.zero 0, .None, [], []⟩ =
        some (.Airdodge Vec2.zero) :=
  ⟨division_guard_status.1 ⟨0, 0⟩ ⟨5, 0⟩ ⟨6, 0⟩,
    division_guard_status.2.2.2 ⟨Vec2.zero, .Some .Shield Vec2.zero 0, .None, [], []⟩
      rfl rfl⟩

/-! ## Claim C10: symmetry of the nearest-pass distance.

The vector and interval lemmas below support the case analysis over the
branches of `intersection_of_line_segments`. -/

namespace Vec2

@[ext] theorem ext {a b : Vec2} (hx : a.x = b.x) (hy : a.y = b.y) : a = b := by
  cases a
  cases b
  simp_all

theorem cross_self (v : Vec2) : cross v v = 0 := by
  simp [cross, mul_comm]

theorem cross_zero_left (w : Vec2) : cross Vec2.zero w = 0 := by
  simp [cross, zero]

theorem cross_zero_right (v : Vec2) : cross v Vec2.zero = 0 := by
  simp [cross, zero]

theorem cross_anticomm (v w : Vec2) : cross w v = -cross v w := by
  simp [cross]
  ring

theorem cross_neg_left (v w : Vec2) : cross (-v) w = -cross v w := by
  simp [cross]
  ring

theorem cross_smul_left (k : ℚ) (v w : Vec2) : cross (k • v) w = k * cross v w := by
  simp [cross]
  ring

theorem cross_smul_right (k : ℚ) (v w : Vec2) : cross v (k • w) = k * cross v w := by
  simp [cross]
  ring

theorem dot_smul_left (k : ℚ) (v w : Vec2) : dot (k • v) w = k * dot v w := by
  simp [dot]
  ring

theorem dot_smul_right (k : ℚ) (v w : Vec2) : dot v (k • w) = k * dot v w := by
  simp [dot]
  ring

theorem dot_add_left (a b c : Vec2) : dot (a + b) c = dot a c + dot b c := by
  simp [dot]
  ring

theorem dot_self_eq_lenSq (v : Vec2) : dot v v = lenSq v := rfl

theorem dot_self_ne_zero {v : Vec2} (h : v ≠ Vec2.zero) : dot v v ≠ 0 := by
  rw [dot_self_eq_lenSq]
  intro h0
  exact h ((lenSq_eq_zero_iff v).mp h0)

theorem sub_swap (a b : Vec2) : a - b = -(b - a) := by
  ext <;> simp

theorem zero_smul_vec (v : Vec2) : (0 : ℚ) • v = Vec2.zero := by
  ext <;> simp [zero]

theorem neg_smul_add (m : ℚ) (r : Vec2) : (-m) • r + r = (1 - m) • r := by
  ext <;> simp <;> ring

theorem add_sub_right (q s p : Vec2) : q + s - p = (q - p) + s := by
  ext <;> simp <;> ring

theorem add_sub_cancel_mid (a c : Vec2) : a + (a - a) - c = a - c := by
  ext <;> simp

theorem neg_smul_of_sub {q p : Vec2} {m : ℚ} {r : Vec2} (h : q - p = m • r) :
    p - q = (-m) • r := by
  rw [sub_swap, h]
  ext <;> simp

/-- A vector whose cross product with a nonzero `r` vanishes is the scalar
multiple of `r` by `(s ⬝ r) / (r ⬝ r)`. -/
theorem scalar_of_cross_eq_zero {r s : Vec2} (hr : r ≠ Vec2.zero)
    (h : cross r s = 0) : s = (dot s r / dot r r) • r := by
  have hrr : dot r r ≠ 0 := dot_self_ne_zero hr
  obtain ⟨rx, ry⟩ := r
  obtain ⟨sx, sy⟩ := s
  simp only [cross, dot] at h hrr ⊢
  have hx : sx = (sx * rx + sy * ry) / (rx * rx + ry * ry) * rx := by
    field_simp
    linear_combination (-ry) * h
  have hy : sy = (sx * rx + sy * ry) / (rx * rx + ry * ry) * ry := by
    field_simp
    linear_combination rx * h
  exact Vec2.ext (by simpa using hx) (by simpa using hy)

end Vec2

/-- The disjunction of the collinear branch's three admission tests in
`intersection_of_line_segments`. -/
def overlap_cond (t0 t1 : ℚ) : Prop :=
  (0 ≤ t0 ∧ t0 ≤ 1) ∨ (0 ≤ t1 ∧ t1 ≤ 1) ∨ (t0 < 0 ∧ 1 < t1) ∨ (t1 < 0 ∧ 1 < t0)

theorem overlap_cond_aux (x y : ℚ) :
    overlap_cond x y ↔ ((x ≤ 1 ∨ y ≤ 1) ∧ (0 ≤ x ∨ 0 ≤ y)) := by
  unfold overlap_cond
  constructor
  · rintro (⟨h0, h1⟩ | ⟨h0, h1⟩ | ⟨h0, h1⟩ | ⟨h0, h1⟩)
    · exact ⟨Or.inl h1, Or.inl h0⟩
    · exact ⟨Or.inr h1, Or.inr h0⟩
    · exact ⟨Or.inl (by linarith), Or.inr (by linarith)⟩
    · exact ⟨Or.inr (by linarith), Or.inl (by linarith)⟩
  · rintro ⟨h1, h2⟩
    by_cases hx0 : 0 ≤ x
    · by_cases hx1 : x ≤ 1
      · exact Or.inl ⟨hx0, hx1⟩
      · by_cases hy0 : 0 ≤ y
        · by_cases hy1 : y ≤ 1
          · exact Or.inr (Or.inl ⟨hy0, hy1⟩)
          · rcases h1 with h | h <;> linarith
        · exact Or.inr (Or.inr (Or.inr ⟨by linarith, by linarith⟩))
    · by_cases hy1 : 1 < y
      · exact Or.inr (Or.inr (Or.inl ⟨by linarith, hy1⟩))
      · by_cases hy0 : 0 ≤ y
        · exact Or.inr (Or.inl ⟨hy0, by linarith⟩)
        · rcases h2 with h | h <;> linarith

/-- Reparameterising a collinear overlap test from the first segment's frame
(`t0 = m`, `t1 = m + k`) to the second segment's frame (`t0 = -m/k`,
`t1 = (1-m)/k`) preserves it. -/
theorem overlap_cond_transfer (m k : ℚ) (hk : k ≠ 0) :
    (overlap_cond m (m + k) ↔ overlap_cond (-m / k) ((1 - m) / k)) := by
  rw [overlap_cond_aux, overlap_cond_aux]
  rcases hk.lt_or_lt with hneg | hpos
  · rw [div_le_iff_of_neg hneg, div_le_iff_of_neg hneg,
      le_div_iff_of_neg hneg, le_div_iff_of_neg hneg]
    constructor
    · rintro ⟨h1 | h1, h2 | h2⟩ <;>
        exact ⟨Or.inr (by linarith), Or.inl (by linarith)⟩
    · rintro ⟨h1 | h1, h2 | h2⟩ <;>
        exact ⟨Or.inr (by linarith), Or.inl (by linarith)⟩
  · rw [div_le_iff₀ hpos, div_le_iff₀ hpos, le_div_iff₀ hpos, le_div_iff₀ hpos]
    constructor
    · rintro ⟨h1 | h1, h2 | h2⟩ <;>
        exact ⟨Or.inl (by linarith), Or.inr (by linarith)⟩
    · rintro ⟨h1 | h1, h2 | h2⟩ <;>
        exact ⟨Or.inl (by linarith), Or.inr (by linarith)⟩

/-- A zero-length first segment reports no intersection: the collinear branch
is entered and its NaN parameters fail every comparison. -/
theorem intersection_fst_degenerate (a1 b1 a2 b2 : Vec2)
    (hr : b1 - a1 = Vec2.zero) :
    (Hbx.intersection_of_line_segments a1 b1 a2 b2).1 = none := by
  unfold Hbx.intersection_of_line_segments
  dsimp only
  rw [hr]
  have hd : Vec2.dot Vec2.zero Vec2.zero = 0 := by simp [Vec2.dot, Vec2.zero]
  rw [if_pos ⟨Vec2.cross_zero_left _, Vec2.cross_zero_right _⟩, if_pos hd]

/-- The divergent branch: with a nonzero `r × s` the intersection is reported
iff both parameters `t` and `u` lie in `[0, 1]`. -/
theorem intersection_isSome_divergent (a1 b1 a2 b2 : Vec2)
    (hrc : Vec2.cross (b1 - a1) (b2 - a2) ≠ 0) :
    (((Hbx.intersection_of_line_segments a1 b1 a2 b2).1).isSome = true ↔
      (0 ≤ Vec2.cross (a2 - a1) (b2 - a2) / Vec2.cross (b1 - a1) (b2 - a2) ∧
        Vec2.cross (a2 - a1) (b2 - a2) / Vec2.cross (b1 - a1) (b2 - a2) ≤ 1 ∧
        0 ≤ Vec2.cross (a1 - a2) (b1 - a1) / Vec2.cross (b2 - a2) (b1 - a1) ∧
        Vec2.cross (a1 - a2) (b1 - a1) / Vec2.cross (b2 - a2) (b1 - a1) ≤ 1)) := by
  unfold Hbx.intersection_of_line_segments
  dsimp only
  rw [if_neg (fun h => hrc h.1), if_neg (fun h => hrc h.1)]
  split_ifs with hcond
  · exact ⟨fun _ => ⟨hcond.1, hcond.2.1, hcond.2.2.1, hcond.2.2.2⟩, fun _ => rfl⟩
  · exact ⟨fun h => absurd h (by simp), fun hp => absurd ⟨hp.1, hp.2.1, hp.2.2.1, hp.2.2.2⟩ hcond⟩

/-- The parallel non-collinear branch reports no intersection. -/
theorem intersection_fst_parallel (a1 b1 a2 b2 : Vec2)
    (h1 : Vec2.cross (b1 - a1) (b2 - a2) = 0)
    (h2 : Vec2.cross (a2 - a1) (b1 - a1) ≠ 0) :
    (Hbx.intersection_of_line_segments a1 b1 a2 b2).1 = none := by
  unfold Hbx.intersection_of_line_segments
  dsimp only
  rw [if_neg (fun h => h2 h.2), if_pos ⟨h1, h2⟩]

/-- The collinear branch with a non-degenerate first segment: the intersection
is reported iff the overlap condition on the parameters `t0`, `t1` holds. -/
theorem intersection_isSome_collinear (a1 b1 a2 b2 : Vec2)
    (h1 : Vec2.cross (b1 - a1) (b2 - a2) = 0)
    (h2 : Vec2.cross (a2 - a1) (b1 - a1) = 0)
    (h3 : Vec2.dot (b1 - a1) (b1 - a1) ≠ 0) :
    (((Hbx.intersection_of_line_segments a1 b1 a2 b2).1).isSome = true ↔
      overlap_cond
        (Vec2.dot (a2 - a1) (b1 - a1) / Vec2.dot (b1 - a1) (b1 - a1))
        (Vec2.dot (a2 + (b2 - a2) - a1) (b1 - a1) / Vec2.dot (b1 - a1) (b1 - a1))) := by
  unfold Hbx.intersection_of_line_segments
  dsimp only
  rw [if_pos ⟨h1, h2⟩, if_neg h3]
  split_ifs with c1 c2 c3
  · exact ⟨fun _ => Or.inl c1, fun _ => rfl⟩
  · exact ⟨fun _ => Or.inr (Or.inl c2), fun _ => rfl⟩
  · exact ⟨fun _ => Or.inr (Or.inr c3), fun _ => rfl⟩
  · refine ⟨fun h => absurd h (by simp), fun hc => ?_⟩
    rcases hc with h | h | h | h
    · exact absurd h c1
    · exact absurd h c2
    · exact absurd (Or.inl h) c3
    · exact absurd (Or.inr h) c3

/-- Cancelling the common factor `k * R` in a quotient of parallel-segment
parameters. -/
theorem div_cancel_aux (c k R : ℚ) (hk : k ≠ 0) (hR : R ≠ 0) :
    k * (c * R) / (k * (k * R)) = c / k := by
  rw [div_eq_div_iff (mul_ne_zero hk (mul_ne_zero hk hR)) hk]
  ring

/-- Symmetry of reported intersection for two non-degenerate segments. -/
theorem intersection_isSome_symm (a1 b1 a2 b2 : Vec2)
    (hr : b1 - a1 ≠ Vec2.zero) (hs : b2 - a2 ≠ Vec2.zero) :
    (((Hbx.intersection_of_line_segments a1 b1 a2 b2).1).isSome = true ↔
      ((Hbx.intersection_of_line_segments a2 b2 a1 b1).1).isSome = true) := by
  by_cases hrc : Vec2.cross (b1 - a1) (b2 - a2) = 0
  · -- parallel lines
    have hscalar := Vec2.scalar_of_cross_eq_zero hr hrc
    set k := Vec2.dot (b2 - a2) (b1 - a1) / Vec2.dot (b1 - a1) (b1 - a1) with hk_def
    have hk0 : k ≠ 0 := by
      intro h0
      rw [h0, Vec2.zero_smul_vec] at hscalar
      exact hs hscalar
    by_cases hcol : Vec2.cross (a2 - a1) (b1 - a1) = 0
    · -- collinear: transfer the overlap condition between the two frames
      have hmr : Vec2.cross (b1 - a1) (a2 - a1) = 0 := by
        rw [Vec2.cross_anticomm, hcol, neg_zero]
      have hm := Vec2.scalar_of_cross_eq_zero hr hmr
      set m := Vec2.dot (a2 - a1) (b1 - a1) / Vec2.dot (b1 - a1) (b1 - a1) with hm_def
      have hR : Vec2.dot (b1 - a1) (b1 - a1) ≠ 0 := Vec2.dot_self_ne_zero hr
      have hS : Vec2.dot (b2 - a2) (b2 - a2) ≠ 0 := Vec2.dot_self_ne_zero hs
      have hiffA := intersection_isSome_collinear a1 b1 a2 b2 hrc hcol hR
      -- B's hypotheses
      have h1B : Vec2.cross (b2 - a2) (b1 - a1) = 0 := by
        rw [Vec2.cross_anticomm, hrc, neg_zero]
      have hpq : a1 - a2 = (-m) • (b1 - a1) := Vec2.neg_smul_of_sub hm
      have h2B : Vec2.cross (a1 - a2) (b2 - a2) = 0 := by
        rw [hpq, hscalar, Vec2.cross_smul_left, Vec2.cross_smul_right,
          Vec2.cross_self]
        ring
      have hiffB := intersection_isSome_collinear a2 b2 a1 b1 h1B h2B hS
      -- the parameters of A
      have ht1A :
          Vec2.dot (a2 + (b2 - a2) - a1) (b1 - a1) / Vec2.dot (b1 - a1) (b1 - a1) =
            m + k := by
        rw [Vec2.add_sub_right, Vec2.dot_add_left, add_div]
      -- the parameters of B
      have ht0B :
          Vec2.dot (a1 - a2) (b2 - a2) / Vec2.dot (b2 - a2) (b2 - a2) = -m / k := by
        rw [hpq, hscalar]
        simp only [Vec2.dot_smul_left, Vec2.dot_smul_right]
        exact div_cancel_aux (-m) k _ hk0 hR
      have ht1B :
          Vec2.dot (a1 + (b1 - a1) - a2) (b2 - a2) / Vec2.dot (b2 - a2) (b2 - a2) =
            (1 - m) / k := by
        have hmid : a1 + (b1 - a1) - a2 = (1 - m) • (b1 - a1) := by
          rw [Vec2.add_sub_right, hpq, Vec2.neg_smul_add]
        rw [hmid, hscalar]
        simp only [Vec2.dot_smul_left, Vec2.dot_smul_right]
        exact div_cancel_aux (1 - m) k _ hk0 hR
      rw [hiffA, hiffB, ht1A, ht0B, ht1B]
      exact overlap_cond_transfer m k hk0
    · -- parallel, non-collinear: both report none
      have hA := intersection_fst_parallel a1 b1 a2 b2 hrc hcol
      have h2B : Vec2.cross (a1 - a2) (b2 - a2) ≠ 0 := by
        rw [Vec2.sub_swap a1 a2, hscalar, Vec2.cross_smul_right,
          Vec2.cross_neg_left]
        intro h0
        rcases mul_eq_zero.mp h0 with h | h
        · exact hk0 h
        · exact hcol (neg_eq_zero.mp h)
      have h1B : Vec2.cross (b2 - a2) (b1 - a1) = 0 := by
        rw [Vec2.cross_anticomm, hrc, neg_zero]
      have hB := intersection_fst_parallel a2 b2 a1 b1 h1B h2B
      rw [hA, hB]
  · -- divergent: the same parameters appear on both sides, reordered
    have hrc2 : Vec2.cross (b2 - a2) (b1 - a1) ≠ 0 := by
      rw [Vec2.cross_anticomm]
      exact neg_ne_zero.mpr hrc
    rw [intersection_isSome_divergent a1 b1 a2 b2 hrc,
      intersection_isSome_divergent a2 b2 a1 b1 hrc2]
    tauto

theorem circle_pill_distSq_nonneg (c a b : Vec2) : 0 ≤ Hbx.circle_pill_distSq c a b := by
  unfold Hbx.circle_pill_distSq
  dsimp only
  split_ifs <;>
    simp [le_min_iff, Vec2.lenSq_nonneg]

/-- A point on the pill's core segment is at squared distance 0 from it. -/
theorem circle_pill_distSq_zero_of_mem {c a b : Vec2}
    (hb : Vec2.lenSq (b - a) ≠ 0) {t0 : ℚ} (h0 : 0 ≤ t0) (h1 : t0 ≤ 1)
    (hc : c - a = t0 • (b - a)) :
    Hbx.circle_pill_distSq c a b = 0 := by
  unfold Hbx.circle_pill_distSq
  dsimp only
  rw [if_neg hb]
  have ht : Vec2.dot (c - a) (b - a) / Vec2.lenSq (b - a) = t0 := by
    rw [hc, Vec2.dot_smul_left, Vec2.dot_self_eq_lenSq, mul_div_assoc,
      div_self hb, mul_one]
  rw [ht, if_pos ⟨h0, h1⟩]
  have hperp : c - (a + t0 • (b - a)) = Vec2.zero := by
    rw [← hc]
    ext <;> simp [Vec2.zero]
  rw [hperp]
  have hz : Vec2.lenSq Vec2.zero = 0 := by simp [Vec2.lenSq, Vec2.zero]
  rw [hz]
  exact min_eq_right (le_min (Vec2.lenSq_nonneg _) (Vec2.lenSq_nonneg _))

/-- Reordering the four endpoint sub-problems of the Pill–Pill fallback. -/
theorem min4_comm (a b c d : ℚ) :
    min (min (min a b) c) d = min (min (min c d) a) b := by
  rw [min_assoc (min a b) c d, min_assoc (min c d) a b,
    min_comm (min a b) (min c d)]

/-- The asymmetric case of the Pill–Pill arm: one direction's core-segment
intersection test accepts while the other rejects.  This forces the second
pill's core to be a single point lying on the first core segment, where the
fallback minimum of the other direction is exactly 0, matching the
intersecting direction's distance. -/
theorem pill_pill_pass_of_some_none (r1 r2 : ℚ) (a1 b1 a2 b2 : Vec2)
    (hA : ((Hbx.intersection_of_line_segments a1 b1 a2 b2).1).isSome = true)
    (hB : (Hbx.intersection_of_line_segments a2 b2 a1 b1).1 = none) :
    Hbx.pill_pill_pass r1 a1 b1 r2 a2 b2 = Hbx.pill_pill_pass r2 a2 b2 r1 a1 b1 := by
  have hr : b1 - a1 ≠ Vec2.zero := by
    intro h
    rw [intersection_fst_degenerate a1 b1 a2 b2 h] at hA
    simp at hA
  have hs : b2 - a2 = Vec2.zero := by
    by_contra hs
    have := (intersection_isSome_symm a1 b1 a2 b2 hr hs).mp hA
    rw [hB] at this
    simp at this
  have hb2 : a2 = b2 := by
    have h := hs
    cases a2
    cases b2
    simp_all [Vec2.zero, Vec2.mk.injEq]
    exact ⟨by linarith [h.1], by linarith [h.2]⟩
  subst hb2
  -- A is in the collinear branch
  have hzz : a2 - a2 = Vec2.zero := by
    ext <;> simp [Vec2.zero]
  have h1 : Vec2.cross (b1 - a1) (a2 - a2) = 0 := by
    rw [hzz]
    exact Vec2.cross_zero_right _
  have hcol : Vec2.cross (a2 - a1) (b1 - a1) = 0 := by
    by_contra hcol
    rw [intersection_fst_parallel a1 b1 a2 a2 h1 hcol] at hA
    simp at hA
  have hR : Vec2.dot (b1 - a1) (b1 - a1) ≠ 0 := Vec2.dot_self_ne_zero hr
  have hiffA := intersection_isSome_collinear a1 b1 a2 a2 h1 hcol hR
  have hmid : a2 + (a2 - a2) - a1 = a2 - a1 := Vec2.add_sub_cancel_mid a2 a1
  rw [hmid] at hiffA
  have hcond := hiffA.mp hA
  have ht0 : 0 ≤ Vec2.dot (a2 - a1) (b1 - a1) / Vec2.dot (b1 - a1) (b1 - a1) ∧
      Vec2.dot (a2 - a1) (b1 - a1) / Vec2.dot (b1 - a1) (b1 - a1) ≤ 1 := by
    rcases hcond with h | h | h | h
    · exact h
    · exact h
    · exact absurd (lt_trans h.1 (lt_trans one_pos h.2)) (lt_irrefl _)
    · exact absurd (lt_trans h.1 (lt_trans one_pos h.2)) (lt_irrefl _)
  have hmr : Vec2.cross (b1 - a1) (a2 - a1) = 0 := by
    rw [Vec2.cross_anticomm, hcol, neg_zero]
  have hm := Vec2.scalar_of_cross_eq_zero hr hmr
  -- both sides evaluated
  obtain ⟨x, hx⟩ := Option.isSome_iff_exists.mp hA
  have hz1 : Hbx.circle_pill_distSq a2 a1 b1 = 0 :=
    circle_pill_distSq_zero_of_mem
      (by rwa [← Vec2.dot_self_eq_lenSq]) ht0.1 ht0.2 hm
  unfold Hbx.pill_pill_pass
  rw [hx, hB]
  dsimp only
  have hmin :
      min (min (min (Hbx.circle_pill_distSq a2 a1 b1) (Hbx.circle_pill_distSq a2 a1 b1))
          (Hbx.circle_pill_distSq a1 a2 a2))
        (Hbx.circle_pill_distSq b1 a2 a2) = 0 := by
    rw [hz1, min_self]
    rw [min_eq_left (circle_pill_distSq_nonneg a1 a2 a2),
      min_eq_left (circle_pill_distSq_nonneg b1 a2 a2)]
  rw [hmin]
  rw [Hbx.NearestPass.mk.injEq]
  exact ⟨rfl, add_comm r1 r2⟩

/-- Symmetry of the Pill–Pill arm. -/
theorem pill_pill_pass_symm (r1 r2 : ℚ) (a1 b1 a2 b2 : Vec2) :
    Hbx.pill_pill_pass r1 a1 b1 r2 a2 b2 = Hbx.pill_pill_pass r2 a2 b2 r1 a1 b1 := by
  cases hA : (Hbx.intersection_of_line_segments a1 b1 a2 b2).1 with
  | some xA =>
    cases hB : (Hbx.intersection_of_line_segments a2 b2 a1 b1).1 with
    | some xB =>
      unfold Hbx.pill_pill_pass
      rw [hA, hB]
      rw [Hbx.NearestPass.mk.injEq]
      exact ⟨rfl, add_comm r1 r2⟩
    | none =>
      exact pill_pill_pass_of_some_none r1 r2 a1 b1 a2 b2 (by simp [hA]) hB
  | none =>
    cases hB : (Hbx.intersection_of_line_segments a2 b2 a1 b1).1 with
    | some xB =>
      exact (pill_pill_pass_of_some_none r2 r1 a2 b2 a1 b1 (by simp [hB]) hA).symm
    | none =>
      unfold Hbx.pill_pill_pass
      rw [hA, hB]
      rw [Hbx.NearestPass.mk.injEq]
      exact ⟨min4_comm _ _ _ _, add_comm r1 r2⟩

/-- Claim C10: `Shape::nearest_pass` is symmetric in its two shape/transform
arguments — the reported distance (represented exactly as
`sqrt distSq - radSum`) does not depend on the order of the pair, so whether
two hitboxes overlap is order-independent. -/
theorem nearest_pass_symm (s1 : Hbx.Shape) (t1 : Hbx.Transform)
    (s2 : Hbx.Shape) (t2 : Hbx.Transform) :
    Hbx.nearest_pass s1 t1 s2 t2 = Hbx.nearest_pass s2 t2 s1 t1 := by
  cases s1 with
  | Circle r1 =>
    cases s2 with
    | Circle r2 =>
      unfold Hbx.nearest_pass
      simp only [Hbx.NearestPass.mk.injEq]
      exact ⟨Vec2.lenSq_sub_comm _ _, add_comm _ _⟩
    | Pill major minor => rfl
  | Pill major1 minor1 =>
    cases s2 with
    | Circle r2 => rfl
    | Pill major2 minor2 =>
      unfold Hbx.nearest_pass
      dsimp only
      exact pill_pill_pass_symm _ _ _ _ _ _

end FighterPlatformer
